import Mathlib

/-!
Verification development for the scheduling base pass
(`qiskit/transpiler/passes/scheduling/scheduling/base_scheduler.py`).

Part 1 embeds `BaseScheduler._get_node_duration` and `BaseScheduler.__init__`
as pure Lean functions.  Mutation of `node.op.duration` is made explicit by
returning the updated node next to the result; the call to `warnings.warn`
is made explicit as a trace of emitted out-of-band warning calls.

Part 2 (further below) models the forward (ASAP) and backward (ALAP)
scheduling strategies.  Those two concrete strategies are not part of the
source fragment (`BaseScheduler.run` raises `NotImplementedError`), so they
are modelled from the specification, as marked in their doc comments.
-/

namespace Spec2Proof

/-- A node duration as stored on `node.op.duration` in Python:
`None`, an unbound `ParameterExpression`, or a concrete number.
`P` is the type of parameter expressions. -/
inductive Duration (P : Type) where
  | missing
  | param (e : P)
  | val (n : Int)
deriving DecidableEq

/-- The fields of `node.op` read or written by `_get_node_duration`:
`node.op.name`, `node.op.params` and the mutable `node.op.duration`. -/
structure Operation (P : Type) where
  name : String
  params : List P
  duration : Duration P
deriving DecidableEq

/-- A `DAGOpNode`: its operation and its qubit arguments. -/
structure DAGOpNode (Qu P : Type) where
  op : Operation P
  qargs : List Qu
deriving DecidableEq

/-- A calibration entry (`dag.calibrations[name][cal_key]`); the scheduler
only reads its `.duration` attribute. -/
structure CalEntry (P : Type) where
  duration : Duration P
deriving DecidableEq

/-- The part of a `DAGCircuit` consulted by `_get_node_duration`.
Modelled from the spec for the lookup mechanics, which live outside the
source fragment ("a lookup keyed by (operation name, data-resource indices,
rounded numeric parameters) → duration; ... the scheduler only queries it"):
`calibrations` maps an operation name and a key
(qubit indices, rounded parameters) to an optional entry, and
`dag.has_calibration_for(node)` is presence of an entry at that key. -/
structure DAGCircuitCal (F P : Type) where
  calibrations : String → (List Nat × List F) → Option (CalEntry P)

/-- Python `repr` of a list of indices, as interpolated by an f-string:
`[i0, i1, ...]`. -/
def pyListRepr (l : List Nat) : String :=
  "[" ++ String.intercalate ", " (l.map toString) ++ "]"

/-- The error raised by the pass on duration-resolution failure. -/
inductive TranspilerError where
  | transpilerError (msg : String)
deriving DecidableEq

/-- Message of line 251-254: parameterized (unbound) duration. -/
def unboundedMsg (durStr name idxStr : String) : String :=
  "Parameterized duration (" ++ durStr ++ ") of " ++ name ++ " on qubits "
    ++ idxStr ++ " is not bounded."

/-- Message of line 256: no duration found. -/
def notFoundMsg (name idxStr : String) : String :=
  "Duration of " ++ name ++ " on qubits " ++ idxStr ++ " is not found."

variable {Qu P F : Type}

/-- The calibration key built at line 242:
`cal_key = tuple(indices), tuple(float(p) for p in node.op.params)`.
`pfloat` models Python's `float(...)` conversion of a parameter. -/
def calKey (pfloat : P → F) (node : DAGOpNode Qu P) (bitIndexMap : Qu → Nat) :
    List Nat × List F :=
  (node.qargs.map bitIndexMap, node.op.params.map pfloat)

/-- Embedding of `BaseScheduler._get_node_duration` (lines 231-258).
`pstr` models Python `str(...)` on a parameter expression (for the error
message), `pfloat` models `float(...)`, and `bitIndexMap` is `bit_index_map`.
The Python function mutates `node.op.duration` on a calibration hit and then
returns an `int` or raises `TranspilerError`; here the final node state is
returned next to the `Except` result. -/
def getNodeDuration (pstr : P → String) (pfloat : P → F)
    (node : DAGOpNode Qu P) (bitIndexMap : Qu → Nat) (dag : DAGCircuitCal F P) :
    Except TranspilerError Int × DAGOpNode Qu P :=
  let indices := node.qargs.map bitIndexMap
  let looked := dag.calibrations node.op.name (indices, node.op.params.map pfloat)
  let duration :=
    match looked with
    | some entry => entry.duration
    | none => node.op.duration
  let node1 :=
    match looked with
    | some entry => { node with op := { node.op with duration := entry.duration } }
    | none => node
  match duration with
  | .param e =>
      (.error (.transpilerError
        (unboundedMsg (pstr e) node.op.name (pyListRepr indices))), node1)
  | .missing =>
      (.error (.transpilerError (notFoundMsg node.op.name (pyListRepr indices))), node1)
  | .val n => (.ok n, node1)

/-- The warning message of lines 224-228 (two adjacent string literals). -/
def alreadyScheduledMsg : String :=
  "This circuit has been already scheduled. "
    ++ "The output of previous scheduling pass will be overridden."

/-- The Python warning category passed to `warnings.warn`. -/
inductive PyWarningCategory where
  | userWarning
deriving DecidableEq

/-- One call to Python's out-of-band `warnings.warn` channel. -/
structure WarningsWarnCall where
  message : String
  category : PyWarningCategory
deriving DecidableEq

/-- `self.requires` entries; `__init__` appends `TimeUnitConversion(durations)`.
`D` is the type of `InstructionDurations`. -/
inductive PassReq (D : Type) where
  | timeUnitConversion (durations : D)
deriving DecidableEq

/-- The attributes of the constructed `BaseScheduler` object after
`__init__`: `self.durations`, `self.requires` and `self.property_set`.
The property set is modelled as a map from key to optional value; the only
key the pass touches is `"node_start_time"`, whose value is a start-time
map (association list node id → start time). -/
structure BaseSchedulerState (D : Type) where
  durations : D
  requires : List (PassReq D)
  property_set : String → Option (List (Nat × Nat))

/-- What `BaseScheduler.__init__` produces: the constructed object and the
trace of `warnings.warn` calls it performed (its only side channel). -/
structure InitResult (D : Type) where
  scheduler : BaseSchedulerState D
  warningsWarnCalls : List WarningsWarnCall

/-- Embedding of `BaseScheduler.__init__` (lines 210-229): stores
`durations`, appends `TimeUnitConversion(durations)` to `requires`, emits a
`UserWarning` through `warnings.warn` iff `"node_start_time"` is already in
the property set, and unconditionally resets
`property_set["node_start_time"]` to an empty dict. -/
def baseSchedulerInit {D : Type} (durations : D)
    (property_set : String → Option (List (Nat × Nat))) : InitResult D :=
  { scheduler :=
      { durations := durations
        requires := [.timeUnitConversion durations]
        property_set := fun k =>
          if k = "node_start_time" then some [] else property_set k }
    warningsWarnCalls :=
      if (property_set "node_start_time").isSome then
        [{ message := alreadyScheduledMsg, category := .userWarning }]
      else [] }

/-- The duration value resolved by lines 240-248: the calibration entry's
duration on a calibration hit, the duration stored on the node otherwise. -/
def resolvedDuration (pfloat : P → F) (node : DAGOpNode Qu P)
    (bitIndexMap : Qu → Nat) (dag : DAGCircuitCal F P) : Duration P :=
  match dag.calibrations node.op.name (calKey pfloat node bitIndexMap) with
  | some entry => entry.duration
  | none => node.op.duration

/-- C1: for every node for which the graph carries a calibration entry,
duration resolution resolves to the calibration entry's duration in
preference to any duration stored on the node (so a concrete calibration
duration is what is returned), and writes that resolved duration back onto
the node (`node.op.duration`) as memoization. -/
theorem C1_calibration_priority (pstr : P → String) (pfloat : P → F)
    (node : DAGOpNode Qu P) (bitIndexMap : Qu → Nat) (dag : DAGCircuitCal F P)
    (entry : CalEntry P)
    (h : dag.calibrations node.op.name (calKey pfloat node bitIndexMap) = some entry) :
    (getNodeDuration pstr pfloat node bitIndexMap dag).2.op.duration = entry.duration ∧
    ∀ n : Int, entry.duration = .val n →
      (getNodeDuration pstr pfloat node bitIndexMap dag).1 = .ok n := by
  simp only [calKey] at h
  unfold getNodeDuration
  simp only [h]
  refine ⟨?_, ?_⟩
  · cases entry.duration <;> rfl
  · intro n hn
    simp only [hn]

/-- C2: whenever the resolved duration (calibration entry first, stored
duration otherwise) is a symbolic parameter expression, duration resolution
fails with the unbound-parameter `TranspilerError`. -/
theorem C2_unbound_parameter_failure (pstr : P → String) (pfloat : P → F)
    (node : DAGOpNode Qu P) (bitIndexMap : Qu → Nat) (dag : DAGCircuitCal F P)
    (e : P) (h : resolvedDuration pfloat node bitIndexMap dag = .param e) :
    (getNodeDuration pstr pfloat node bitIndexMap dag).1 =
      .error (.transpilerError
        (unboundedMsg (pstr e) node.op.name (pyListRepr (node.qargs.map bitIndexMap)))) := by
  unfold resolvedDuration calKey at h
  unfold getNodeDuration
  cases hcal : dag.calibrations node.op.name
      (node.qargs.map bitIndexMap, node.op.params.map pfloat) with
  | none => simp only [hcal] at h ⊢; simp only [h]
  | some entry => simp only [hcal] at h ⊢; simp only [h]

/-- C3: for every node with neither a stored duration nor a calibration
entry, duration resolution fails with the duration-not-found
`TranspilerError` and returns no duration. -/
theorem C3_missing_duration_failure (pstr : P → String) (pfloat : P → F)
    (node : DAGOpNode Qu P) (bitIndexMap : Qu → Nat) (dag : DAGCircuitCal F P)
    (hdur : node.op.duration = .missing)
    (hcal : dag.calibrations node.op.name (calKey pfloat node bitIndexMap) = none) :
    (getNodeDuration pstr pfloat node bitIndexMap dag).1 =
      .error (.transpilerError
        (notFoundMsg node.op.name (pyListRepr (node.qargs.map bitIndexMap)))) := by
  simp only [calKey] at hcal
  unfold getNodeDuration
  simp only [hcal, hdur]

/-- Concrete node for the C4 counterexample: stored duration 100. -/
def c4Node : DAGOpNode Nat Nat :=
  { op := { name := "x", params := [], duration := .val 100 }, qargs := [0] }

/-- Concrete dag for the C4 counterexample: a calibration entry for `x` on
qubit 0 whose duration is an unbound parameter expression. -/
def c4Dag : DAGCircuitCal Nat Nat :=
  { calibrations := fun nm key =>
      if nm = "x" ∧ key = ([0], []) then some { duration := .param 5 } else none }

/-- C4 counterexample: duration resolution fails on `c4Node`/`c4Dag` (the
calibration duration is symbolic), yet the node's stored duration has been
overwritten on this error path — the failure is not atomic. -/
theorem C4_counterexample :
    (getNodeDuration toString id c4Node (fun q => q) c4Dag).1.isOk = false ∧
    (getNodeDuration toString id c4Node (fun q => q) c4Dag).2 ≠ c4Node := by
  decide

/-- C4 (amended): when there is no calibration entry for the node, every
duration-resolution failure leaves the node unchanged; with a calibration
entry, the calibration duration has already been memoized onto the node when
the error is raised. -/
theorem C4_amended_no_calibration_error_is_atomic (pstr : P → String) (pfloat : P → F)
    (node : DAGOpNode Qu P) (bitIndexMap : Qu → Nat) (dag : DAGCircuitCal F P)
    (herr : (getNodeDuration pstr pfloat node bitIndexMap dag).1.isOk = false)
    (hcal : dag.calibrations node.op.name (calKey pfloat node bitIndexMap) = none) :
    (getNodeDuration pstr pfloat node bitIndexMap dag).2 = node := by
  simp only [calKey] at hcal
  unfold getNodeDuration
  simp only [hcal]
  cases node.op.duration <;> rfl

/-- Concrete node for the C4 witness: no stored duration. -/
def c4WitnessNode : DAGOpNode Nat Nat :=
  { op := { name := "y", params := [], duration := .missing }, qargs := [1] }

/-- A dag with no calibrations at all. -/
def emptyDag : DAGCircuitCal Nat Nat := { calibrations := fun _ _ => none }

/-- Witness for the amended C4 at a concrete failing input. -/
theorem C4_amended_witness :
    (getNodeDuration toString id c4WitnessNode (fun q => q) emptyDag).1.isOk = false ∧
    (getNodeDuration toString id c4WitnessNode (fun q => q) emptyDag).2 = c4WitnessNode :=
  ⟨by decide,
   C4_amended_no_calibration_error_is_atomic toString id c4WitnessNode (fun q => q)
     emptyDag (by decide) rfl⟩

/-- C10: for every node with no calibration entry, duration resolution is
read-only on the node — it returns the stored duration and writes nothing
back. -/
theorem C10_no_calibration_read_only (pstr : P → String) (pfloat : P → F)
    (node : DAGOpNode Qu P) (bitIndexMap : Qu → Nat) (dag : DAGCircuitCal F P)
    (hcal : dag.calibrations node.op.name (calKey pfloat node bitIndexMap) = none) :
    (getNodeDuration pstr pfloat node bitIndexMap dag).2 = node ∧
    ∀ n : Int, node.op.duration = .val n →
      (getNodeDuration pstr pfloat node bitIndexMap dag).1 = .ok n := by
  simp only [calKey] at hcal
  unfold getNodeDuration
  simp only [hcal]
  refine ⟨?_, ?_⟩
  · cases node.op.duration <;> rfl
  · intro n hn
    simp only [hn]

/-- Concrete node for the C10 witness: stored duration 7, no calibration. -/
def c10Node : DAGOpNode Nat Nat :=
  { op := { name := "h", params := [], duration := .val 7 }, qargs := [2] }

/-- Witness for C10 at a concrete input. -/
theorem C10_witness :
    (getNodeDuration toString id c10Node (fun q => q) emptyDag).2 = c10Node ∧
    (getNodeDuration toString id c10Node (fun q => q) emptyDag).1 = .ok 7 := by
  have h := C10_no_calibration_read_only toString id c10Node (fun q => q) emptyDag rfl
  exact ⟨h.1, h.2 7 rfl⟩

/-- Concrete calibration dag for the C1 witness: entry for `rx` on qubit 0
with rounded parameter 2, concrete duration 160; stored node duration 99. -/
def c1Dag : DAGCircuitCal Nat Nat :=
  { calibrations := fun nm key =>
      if nm = "rx" ∧ key = ([0], [2]) then some { duration := .val 160 } else none }

/-- Concrete node for the C1 witness. -/
def c1Node : DAGOpNode Nat Nat :=
  { op := { name := "rx", params := [2], duration := .val 99 }, qargs := [0] }

/-- Witness for C1 at a concrete input: the calibration duration 160 wins
over the stored 99 and is memoized onto the node. -/
theorem C1_witness :
    (getNodeDuration toString id c1Node (fun q => q) c1Dag).2.op.duration = .val 160 ∧
    (getNodeDuration toString id c1Node (fun q => q) c1Dag).1 = .ok 160 := by
  have h := C1_calibration_priority toString id c1Node (fun q => q) c1Dag
    { duration := .val 160 } (by decide)
  exact ⟨h.1, h.2 160 rfl⟩

/-- Concrete node for the C2 witness: stored duration is the unbound
parameter expression `5`, no calibration entry. -/
def c2Node : DAGOpNode Nat Nat :=
  { op := { name := "rz", params := [], duration := .param 5 }, qargs := [3] }

/-- Witness for C2 at a concrete input. -/
theorem C2_witness :
    resolvedDuration id c2Node (fun q => q) emptyDag = .param 5 ∧
    (getNodeDuration toString id c2Node (fun q => q) emptyDag).1 =
      .error (.transpilerError (unboundedMsg "5" "rz" "[3]")) := by
  refine ⟨rfl, ?_⟩
  have h := C2_unbound_parameter_failure toString id c2Node (fun q => q) emptyDag 5 rfl
  exact h

/-- Witness for C3 at a concrete input (`c4WitnessNode` has no duration,
`emptyDag` no calibrations). -/
theorem C3_witness :
    (getNodeDuration toString id c4WitnessNode (fun q => q) emptyDag).1 =
      .error (.transpilerError (notFoundMsg "y" "[1]")) := by
  have h := C3_missing_duration_failure toString id c4WitnessNode (fun q => q)
    emptyDag rfl rfl
  exact h

/-- C5: initializing the scheduler over a property set that already carries
a `node_start_time` entry emits a non-fatal `UserWarning`, completes the
construction normally, and resets the start-time map to an empty dict. -/
theorem C5_rerun_warns_and_overwrites {D : Type} (durations : D)
    (property_set : String → Option (List (Nat × Nat)))
    (hprior : (property_set "node_start_time").isSome = true) :
    (baseSchedulerInit durations property_set).warningsWarnCalls =
      [{ message := alreadyScheduledMsg, category := .userWarning }] ∧
    (baseSchedulerInit durations property_set).scheduler.property_set
      "node_start_time" = some [] ∧
    (baseSchedulerInit durations property_set).scheduler.durations = durations := by
  refine ⟨?_, rfl, rfl⟩
  simp only [baseSchedulerInit, hprior, if_true]

/-- A property set already carrying a prior schedule. -/
def psPrior : String → Option (List (Nat × Nat)) :=
  fun k => if k = "node_start_time" then some [(0, 5)] else none

/-- Witness for C5 at a concrete input. -/
theorem C5_witness :
    (psPrior "node_start_time").isSome = true ∧
    (baseSchedulerInit (0 : Nat) psPrior).warningsWarnCalls =
      [{ message := alreadyScheduledMsg, category := .userWarning }] ∧
    (baseSchedulerInit (0 : Nat) psPrior).scheduler.property_set
      "node_start_time" = some [] ∧
    (baseSchedulerInit (0 : Nat) psPrior).scheduler.durations = 0 :=
  ⟨by decide, C5_rerun_warns_and_overwrites 0 psPrior (by decide)⟩

/-- C6 counterexample: on a concrete already-scheduled input the
"already scheduled" diagnostic IS emitted through Python's out-of-band
`warnings.warn` channel (the trace of `warnings.warn` calls is non-empty and
carries the diagnostic), contradicting the claim that it is not emitted as a
side effect. -/
theorem C6_counterexample :
    (baseSchedulerInit (0 : Nat) psPrior).warningsWarnCalls ≠ [] ∧
    (baseSchedulerInit (0 : Nat) psPrior).warningsWarnCalls =
      [{ message := alreadyScheduledMsg, category := .userWarning }] := by
  constructor
  · decide
  · decide

/-- C6 (amended): the "already scheduled, overwriting" diagnostic is emitted
as a side effect through the out-of-band `warnings.warn` channel as a
`UserWarning`; the constructed scheduler object itself carries only
`durations`, `requires` and the reset property set — no structured warning
is appended to it. -/
theorem C6_amended_warning_is_out_of_band {D : Type} (durations : D)
    (property_set : String → Option (List (Nat × Nat)))
    (hprior : (property_set "node_start_time").isSome = true) :
    (baseSchedulerInit durations property_set).warningsWarnCalls =
      [{ message := alreadyScheduledMsg, category := .userWarning }] ∧
    (baseSchedulerInit durations property_set).scheduler =
      { durations := durations
        requires := [.timeUnitConversion durations]
        property_set := fun k =>
          if k = "node_start_time" then some [] else property_set k } := by
  refine ⟨?_, rfl⟩
  simp only [baseSchedulerInit, hprior, if_true]

/-- A second property set carrying a prior schedule, for the C6 witness. -/
def psPrior2 : String → Option (List (Nat × Nat)) :=
  fun k => if k = "node_start_time" then some [] else none

/-- Witness for the amended C6 at a concrete input. -/
theorem C6_amended_witness :
    (psPrior2 "node_start_time").isSome = true ∧
    ((baseSchedulerInit (1 : Nat) psPrior2).warningsWarnCalls =
      [{ message := alreadyScheduledMsg, category := .userWarning }] ∧
    (baseSchedulerInit (1 : Nat) psPrior2).scheduler =
      { durations := 1
        requires := [.timeUnitConversion 1]
        property_set := fun k =>
          if k = "node_start_time" then some [] else psPrior2 k }) :=
  ⟨by decide, C6_amended_warning_is_out_of_band 1 psPrior2 (by decide)⟩

/-- C7: the calibration lookup performed by duration resolution consults the
table only at the key (bit-index-mapped qargs, float-converted parameters):
two dags that agree at that key give identical resolution results. -/
theorem C7_calibration_key (pstr : P → String) (pfloat : P → F)
    (node : DAGOpNode Qu P) (bitIndexMap : Qu → Nat)
    (dag1 dag2 : DAGCircuitCal F P)
    (h : dag1.calibrations node.op.name (calKey pfloat node bitIndexMap) =
         dag2.calibrations node.op.name (calKey pfloat node bitIndexMap)) :
    getNodeDuration pstr pfloat node bitIndexMap dag1 =
      getNodeDuration pstr pfloat node bitIndexMap dag2 := by
  simp only [calKey] at h
  unfold getNodeDuration
  simp only [h]

/-- A dag agreeing with `c1Dag` at `c1Node`'s key but differing elsewhere. -/
def c7Dag : DAGCircuitCal Nat Nat :=
  { calibrations := fun nm key =>
      if nm = "rx" ∧ key = ([0], [2]) then some { duration := .val 160 }
      else if nm = "zz" then some { duration := .val 1 }
      else none }

/-- Witness for C7 at a concrete input. -/
theorem C7_witness :
    c1Dag.calibrations c1Node.op.name (calKey id c1Node (fun q => q)) =
      c7Dag.calibrations c1Node.op.name (calKey id c1Node (fun q => q)) ∧
    getNodeDuration toString id c1Node (fun q => q) c1Dag =
      getNodeDuration toString id c1Node (fun q => q) c7Dag :=
  ⟨by decide, C7_calibration_key toString id c1Node (fun q => q) c1Dag c7Dag (by decide)⟩

/-- C8: every duration-resolution failure carries the node's operation name
and the offending qubit indices in its error message. -/
theorem C8_error_context (pstr : P → String) (pfloat : P → F)
    (node : DAGOpNode Qu P) (bitIndexMap : Qu → Nat) (dag : DAGCircuitCal F P)
    (m : String)
    (h : (getNodeDuration pstr pfloat node bitIndexMap dag).1 =
      .error (.transpilerError m)) :
    (∃ a b, m = a ++ node.op.name ++ b) ∧
    ∃ a b, m = a ++ pyListRepr (node.qargs.map bitIndexMap) ++ b := by
  unfold getNodeDuration at h
  cases hcal : dag.calibrations node.op.name
      (node.qargs.map bitIndexMap, node.op.params.map pfloat) with
  | some entry =>
    simp only [hcal] at h
    cases hd : entry.duration with
    | param e =>
      simp only [hd, Except.error.injEq, TranspilerError.transpilerError.injEq] at h
      subst h
      constructor
      · exact ⟨"Parameterized duration (" ++ pstr e ++ ") of ",
          " on qubits " ++ pyListRepr (node.qargs.map bitIndexMap) ++ " is not bounded.",
          by simp [unboundedMsg, String.append_assoc]⟩
      · exact ⟨"Parameterized duration (" ++ pstr e ++ ") of " ++ node.op.name
            ++ " on qubits ", " is not bounded.",
          by simp [unboundedMsg, String.append_assoc]⟩
    | missing =>
      simp only [hd, Except.error.injEq, TranspilerError.transpilerError.injEq] at h
      subst h
      constructor
      · exact ⟨"Duration of ",
          " on qubits " ++ pyListRepr (node.qargs.map bitIndexMap) ++ " is not found.",
          by simp [notFoundMsg, String.append_assoc]⟩
      · exact ⟨"Duration of " ++ node.op.name ++ " on qubits ", " is not found.",
          by simp [notFoundMsg, String.append_assoc]⟩
    | val n =>
      simp only [hd] at h
      exact Except.noConfusion h
  | none =>
    simp only [hcal] at h
    cases hd : node.op.duration with
    | param e =>
      simp only [hd, Except.error.injEq, TranspilerError.transpilerError.injEq] at h
      subst h
      constructor
      · exact ⟨"Parameterized duration (" ++ pstr e ++ ") of ",
          " on qubits " ++ pyListRepr (node.qargs.map bitIndexMap) ++ " is not bounded.",
          by simp [unboundedMsg, String.append_assoc]⟩
      · exact ⟨"Parameterized duration (" ++ pstr e ++ ") of " ++ node.op.name
            ++ " on qubits ", " is not bounded.",
          by simp [unboundedMsg, String.append_assoc]⟩
    | missing =>
      simp only [hd, Except.error.injEq, TranspilerError.transpilerError.injEq] at h
      subst h
      constructor
      · exact ⟨"Duration of ",
          " on qubits " ++ pyListRepr (node.qargs.map bitIndexMap) ++ " is not found.",
          by simp [notFoundMsg, String.append_assoc]⟩
      · exact ⟨"Duration of " ++ node.op.name ++ " on qubits ", " is not found.",
          by simp [notFoundMsg, String.append_assoc]⟩
    | val n =>
      simp only [hd] at h
      exact Except.noConfusion h

/-- Witness for C8 at a concrete input (`c2Node` fails with an unbound
parameter; the message carries the name and the indices). -/
theorem C8_witness :
    (∃ a b, unboundedMsg (toString (5 : Nat)) c2Node.op.name
        (pyListRepr (c2Node.qargs.map (fun q => q))) = a ++ c2Node.op.name ++ b) ∧
    ∃ a b, unboundedMsg (toString (5 : Nat)) c2Node.op.name
        (pyListRepr (c2Node.qargs.map (fun q => q))) =
      a ++ pyListRepr (c2Node.qargs.map (fun q => q)) ++ b :=
  C8_error_context toString id c2Node (fun q => q) emptyDag
    (unboundedMsg (toString (5 : Nat)) c2Node.op.name
      (pyListRepr (c2Node.qargs.map (fun q => q)))) rfl

/-!
Part 2: the forward (earliest-feasible, ASAP) and backward (latest-feasible,
ALAP) scheduling strategies, for the claim `ALAP_start(n) ≥ ASAP_start(n)`.
`BaseScheduler.run` raises `NotImplementedError` in the source fragment, so
these are modelled from the specification (§4.2-§4.4).
-/

/-- The recognized timing options: `conditional_latency` and
`clbit_write_latency` (non-negative integers, default 0). -/
structure TimingConfig where
  conditional_latency : Nat
  clbit_write_latency : Nat
deriving DecidableEq

/-- Modelled from the spec: an operation node as the schedulers see it
(§3, §4.3): its ordered data-resource references (`qargs`), its resolved
duration, the condition-resource its optional condition predicate reads
(`cond`), and the condition-resource it writes, if measurement-like
(`writeTo`).  `Q` is the type of data resources, `C` of condition
resources. -/
structure SpecOpNode (Q C : Type) where
  qargs : List Q
  dur : Nat
  cond : Option C
  writeTo : Option C
deriving DecidableEq

/-- Modelled from the spec: the per-run `ResourceAvailability` table, one
"next free time" entry per data-resource and per condition-resource (§3). -/
structure Avail (Q C : Type) where
  qa : Q → Nat
  ca : C → Nat

/-- All resources available from time 0. -/
def initAvail {Q C : Type} : Avail Q C :=
  { qa := fun _ => 0, ca := fun _ => 0 }

/-- Maximum of a list of naturals (0 for the empty list). -/
def natMaxList (l : List Nat) : Nat := l.foldr max 0

variable {Q C : Type}

/-- Modelled from the spec (§4.3 step 2):
`earliestData = max(availability[r] for r in node.data-resources)`. -/
def earliestData (A : Avail Q C) (n : SpecOpNode Q C) : Nat :=
  natMaxList (n.qargs.map A.qa)

/-- Modelled from the spec (§4.3 steps 2-4 with §4.2): the node's start time
in the forward pass; for a conditional node the maximum of `earliestData`
and `conditionReadyAt = conditionResourceAvailability + conditional_latency`. -/
def asapStart (cfg : TimingConfig) (A : Avail Q C) (n : SpecOpNode Q C) : Nat :=
  match n.cond with
  | some c => max (earliestData A n) (A.ca c + cfg.conditional_latency)
  | none => earliestData A n

/-- Modelled from the spec (§4.3 steps 5-6 with §3): after placing the node,
each touched data-resource becomes free at `start + duration`; a written
condition-resource becomes readable at `writeVisibleAt(start, duration) =
start + clbit_write_latency`.  §3 requires `ResourceAvailability` to be
"mutated monotonically (non-decreasing) during a single scheduling pass",
so a write records `writeVisibleAt` without ever decreasing the entry
(for data resources `start + duration` is never below the old value, since
`start ≥ earliestData`). -/
def asapStep [DecidableEq Q] [DecidableEq C] (cfg : TimingConfig)
    (A : Avail Q C) (n : SpecOpNode Q C) : Avail Q C :=
  { qa := fun q =>
      if q ∈ n.qargs then asapStart cfg A n + n.dur else A.qa q
    ca :=
      match n.writeTo with
      | some cw => fun c =>
          if c = cw then
            max (A.ca c) (asapStart cfg A n + cfg.clbit_write_latency)
          else A.ca c
      | none => A.ca }

/-- Forward traversal of the nodes in the graph's fixed topological order. -/
def asapFold [DecidableEq Q] [DecidableEq C] (cfg : TimingConfig)
    (A : Avail Q C) (ns : List (SpecOpNode Q C)) : Avail Q C :=
  ns.foldl (asapStep cfg) A

/-- Modelled from the spec (§4.4): the reverse-time start of a node in the
backward pass.  Availability tracking is symmetric to the forward pass but
runs over reverse time; latency roles are mirrored, offsetting the other
side of the occupancy interval: a condition-resource writer (a read
dependency in reverse time) must have its reverse-time finish
`revStart + dur` clear the recorded reader demand plus
`clbit_write_latency`, so `revStart ≥ (demand + clbit_write_latency) - dur`. -/
def alapRevStart (cfg : TimingConfig) (R : Avail Q C) (n : SpecOpNode Q C) : Nat :=
  match n.writeTo with
  | some cw => max (earliestData R n) ((R.ca cw + cfg.clbit_write_latency) - n.dur)
  | none => earliestData R n

/-- Modelled from the spec (§4.4 with §3): the reverse-time availability
update.  Data resources are claimed until `revStart + dur`; a conditional
node (a write dependency in reverse time) records its demand on the read
condition-resource at its reverse-time finish offset by
`conditional_latency`.  The tracking is symmetric to the forward pass
(§4.4), so the entry is mutated monotonically (non-decreasing, §3): the
recorded demand never decreases the entry. -/
def alapRevStep [DecidableEq Q] [DecidableEq C] (cfg : TimingConfig)
    (R : Avail Q C) (n : SpecOpNode Q C) : Avail Q C :=
  { qa := fun q =>
      if q ∈ n.qargs then alapRevStart cfg R n + n.dur else R.qa q
    ca :=
      match n.cond with
      | some c => fun d =>
          if d = c then
            max (R.ca d)
              (alapRevStart cfg R n + n.dur + cfg.conditional_latency)
          else R.ca d
      | none => R.ca }

/-- Backward traversal: the same topological order reversed. -/
def alapFold [DecidableEq Q] [DecidableEq C] (cfg : TimingConfig)
    (R : Avail Q C) (ns : List (SpecOpNode Q C)) : Avail Q C :=
  ns.foldl (alapRevStep cfg) R

/-- Modelled from the spec (§3): total schedule length
`= max over all resources of (last occupied end time)`, read off the final
availability table — availability being mutated monotonically, each final
entry is the resource's last occupied end time; `qubits`/`clbits` enumerate
the graph's resources. -/
def scheduleLength (qubits : List Q) (clbits : List C) (A : Avail Q C) : Nat :=
  max (natMaxList (qubits.map A.qa)) (natMaxList (clbits.map A.ca))

/-- Modelled from the spec (§4.4): the total length used by the backward
pass — the forward pass's minimal feasible length, unless a caller-supplied
target length is larger. -/
def totalLength [DecidableEq Q] [DecidableEq C] (cfg : TimingConfig)
    (ns : List (SpecOpNode Q C)) (qubits : List Q) (clbits : List C)
    (target : Nat) : Nat :=
  max (scheduleLength qubits clbits (asapFold cfg initAvail ns)) target

/-- The ASAP (earliest-feasible) start time of the `i`-th node. -/
def asapStartTime [DecidableEq Q] [DecidableEq C] (cfg : TimingConfig)
    (ns : List (SpecOpNode Q C)) (i : Fin ns.length) : Nat :=
  asapStart cfg (asapFold cfg initAvail (ns.take i)) (ns.get i)

/-- The ALAP (latest-feasible) start time of the `i`-th node: the true start
is `totalLength - reverseFinish` (§4.4), where the reverse pass has
processed the nodes after `i` in reverse order. -/
def alapStartTime [DecidableEq Q] [DecidableEq C] (cfg : TimingConfig)
    (ns : List (SpecOpNode Q C)) (qubits : List Q) (clbits : List C)
    (target : Nat) (i : Fin ns.length) : Nat :=
  totalLength cfg ns qubits clbits target -
    (alapRevStart cfg (alapFold cfg initAvail ((ns.drop (i + 1)).reverse)) (ns.get i)
      + (ns.get i).dur)

lemma le_natMaxList {x : Nat} {l : List Nat} (h : x ∈ l) : x ≤ natMaxList l := by
  induction l with
  | nil => cases h
  | cons y l ih =>
    rcases List.mem_cons.mp h with rfl | h2
    · exact Nat.le_max_left _ _
    · exact le_trans (ih h2) (Nat.le_max_right _ _)

lemma natMaxList_add_le {a b T : Nat} {l : List Nat} (h0 : a + (0 + b) ≤ T)
    (h : ∀ x ∈ l, a + (x + b) ≤ T) : a + (natMaxList l + b) ≤ T := by
  induction l with
  | nil => simpa [natMaxList] using h0
  | cons x xs ih =>
    have hx := h x (List.mem_cons_self x xs)
    have hxs := ih (fun y hy => h y (List.mem_cons_of_mem x hy))
    have hmax : natMaxList (x :: xs) = max x (natMaxList xs) := rfl
    rw [hmax]
    rcases Nat.le_total x (natMaxList xs) with hle | hle
    · rw [Nat.max_eq_right hle]; exact hxs
    · rw [Nat.max_eq_left hle]; exact hx

variable [DecidableEq Q] [DecidableEq C]

lemma asapFold_append (cfg : TimingConfig) (A : Avail Q C)
    (l1 l2 : List (SpecOpNode Q C)) :
    asapFold cfg A (l1 ++ l2) = asapFold cfg (asapFold cfg A l1) l2 := by
  simp [asapFold, List.foldl_append]

lemma alapFold_concat (cfg : TimingConfig) (R : Avail Q C)
    (l : List (SpecOpNode Q C)) (n : SpecOpNode Q C) :
    alapFold cfg R (l ++ [n]) = alapRevStep cfg (alapFold cfg R l) n := by
  simp [alapFold, List.foldl_append]

lemma earliestData_le_asapStart (cfg : TimingConfig) (A : Avail Q C)
    (n : SpecOpNode Q C) : earliestData A n ≤ asapStart cfg A n := by
  unfold asapStart
  cases n.cond with
  | some c => exact Nat.le_max_left _ _
  | none => exact le_refl _

lemma qa_le_asapStep (cfg : TimingConfig) (A : Avail Q C) (n : SpecOpNode Q C)
    (q : Q) : A.qa q ≤ (asapStep cfg A n).qa q := by
  unfold asapStep
  by_cases h : q ∈ n.qargs
  · simp only [h, if_true]
    have h1 : A.qa q ≤ earliestData A n :=
      le_natMaxList (List.mem_map_of_mem A.qa h)
    exact le_trans h1 (le_trans (earliestData_le_asapStart cfg A n)
      (Nat.le_add_right _ _))
  · simp only [h, if_false]
    exact le_refl _

lemma qa_le_asapFold (cfg : TimingConfig) (A : Avail Q C)
    (l : List (SpecOpNode Q C)) (q : Q) : A.qa q ≤ (asapFold cfg A l).qa q := by
  induction l generalizing A with
  | nil => exact le_refl _
  | cons m l ih =>
    exact le_trans (qa_le_asapStep cfg A m q) (ih (asapStep cfg A m))

lemma ca_le_asapStep (cfg : TimingConfig) (A : Avail Q C) (n : SpecOpNode Q C)
    (c : C) : A.ca c ≤ (asapStep cfg A n).ca c := by
  unfold asapStep
  cases hw : n.writeTo with
  | none => exact le_refl _
  | some cw =>
    by_cases hc : c = cw
    · simp only [hc, if_pos rfl]
      exact Nat.le_max_left _ _
    · simp only [hc, if_false]
      exact le_refl _

lemma ca_le_asapFold (cfg : TimingConfig) (A : Avail Q C)
    (l : List (SpecOpNode Q C)) (c : C) : A.ca c ≤ (asapFold cfg A l).ca c := by
  induction l generalizing A with
  | nil => exact le_refl _
  | cons m l ih =>
    exact le_trans (ca_le_asapStep cfg A m c) (ih (asapStep cfg A m))

lemma prefix_qa_le_totalLength (cfg : TimingConfig)
    (ns l l2 : List (SpecOpNode Q C)) (qubits : List Q) (clbits : List C)
    (target : Nat) (q : Q) (hns : ns = l ++ l2) (hq : q ∈ qubits) :
    (asapFold cfg initAvail l).qa q ≤ totalLength cfg ns qubits clbits target := by
  have h1 : (asapFold cfg initAvail l).qa q ≤ (asapFold cfg initAvail ns).qa q := by
    rw [hns, asapFold_append]
    exact qa_le_asapFold cfg _ l2 q
  refine le_trans h1 (le_trans ?_ (Nat.le_max_left _ target))
  exact le_trans (le_natMaxList (List.mem_map_of_mem _ hq)) (Nat.le_max_left _ _)

lemma prefix_ca_le_totalLength (cfg : TimingConfig)
    (ns l l2 : List (SpecOpNode Q C)) (qubits : List Q) (clbits : List C)
    (target : Nat) (cw : C) (hns : ns = l ++ l2) (hc : cw ∈ clbits) :
    (asapFold cfg initAvail l).ca cw ≤ totalLength cfg ns qubits clbits target := by
  have h1 : (asapFold cfg initAvail l).ca cw ≤ (asapFold cfg initAvail ns).ca cw := by
    rw [hns, asapFold_append]
    exact ca_le_asapFold cfg _ l2 cw
  refine le_trans h1 (le_trans ?_ (Nat.le_max_left _ target))
  exact le_trans (le_natMaxList (List.mem_map_of_mem _ hc)) (Nat.le_max_right _ _)

/-- The channel part of the scheduling invariant: a nonzero reverse-pass
demand `v` on condition resource `c` was recorded by some conditional node
`n2` of the unprocessed suffix, at its reverse finish offset by the
conditional latency, and that node already satisfies the combined
forward/backward bound. -/
def ChannelFact (cfg : TimingConfig) (pre suf : List (SpecOpNode Q C)) (T : Nat)
    (c : C) (v : Nat) : Prop :=
  ∃ l1 n2 l2, suf = l1 ++ n2 :: l2 ∧ n2.cond = some c ∧
    v = alapRevStart cfg (alapFold cfg initAvail l2.reverse) n2 + n2.dur
      + cfg.conditional_latency ∧
    asapStart cfg (asapFold cfg initAvail (pre ++ l1)) n2 +
      (alapRevStart cfg (alapFold cfg initAvail l2.reverse) n2 + n2.dur) ≤ T

/-- The two-sided availability invariant at a split of the node list:
forward availability of the processed prefix plus reverse availability of
the reversed suffix never exceeds the total length on any data resource,
and every nonzero reverse condition-resource demand is accounted for. -/
def SchedInv (cfg : TimingConfig) (qubits : List Q) (T : Nat)
    (pre suf : List (SpecOpNode Q C)) : Prop :=
  (∀ q ∈ qubits, (asapFold cfg initAvail pre).qa q +
    (alapFold cfg initAvail suf.reverse).qa q ≤ T) ∧
  ∀ c : C, (alapFold cfg initAvail suf.reverse).ca c ≠ 0 →
    ChannelFact cfg pre suf T c ((alapFold cfg initAvail suf.reverse).ca c)

lemma pernode_of_inv (cfg : TimingConfig) (ns : List (SpecOpNode Q C))
    (qubits : List Q) (clbits : List C) (target : Nat)
    (H1 : ∀ m ∈ ns, m.qargs ≠ [])
    (H3q : ∀ m ∈ ns, ∀ q ∈ m.qargs, q ∈ qubits)
    (H3c : ∀ m ∈ ns, ∀ cw : C, m.writeTo = some cw → cw ∈ clbits)
    (pre suf : List (SpecOpNode Q C)) (n : SpecOpNode Q C)
    (hns : ns = pre ++ n :: suf)
    (hinv : SchedInv cfg qubits (totalLength cfg ns qubits clbits target)
      (pre ++ [n]) suf) :
    asapStart cfg (asapFold cfg initAvail pre) n +
      (alapRevStart cfg (alapFold cfg initAvail suf.reverse) n + n.dur) ≤
      totalLength cfg ns qubits clbits target := by
  obtain ⟨hq, hc⟩ := hinv
  have hmem : n ∈ ns := by
    rw [hns]; exact List.mem_append_right _ (List.mem_cons_self _ _)
  have hns2 : ns = (pre ++ [n]) ++ suf := by rw [hns]; simp
  have hF1 : asapFold cfg initAvail (pre ++ [n]) =
      asapStep cfg (asapFold cfg initAvail pre) n := by
    rw [asapFold_append]; rfl
  obtain ⟨q0, hq0⟩ := List.exists_mem_of_ne_nil _ (H1 n hmem)
  have hsd : asapStart cfg (asapFold cfg initAvail pre) n + n.dur ≤
      totalLength cfg ns qubits clbits target := by
    have h1 : (asapFold cfg initAvail (pre ++ [n])).qa q0 =
        asapStart cfg (asapFold cfg initAvail pre) n + n.dur := by
      rw [hF1]; simp only [asapStep]; rw [if_pos hq0]
    have h2 := prefix_qa_le_totalLength cfg ns (pre ++ [n]) suf qubits clbits
      target q0 hns2 (H3q n hmem q0 hq0)
    rw [h1] at h2; exact h2
  have ha : ∀ q ∈ n.qargs,
      asapStart cfg (asapFold cfg initAvail pre) n +
        ((alapFold cfg initAvail suf.reverse).qa q + n.dur) ≤
        totalLength cfg ns qubits clbits target := by
    intro q hqn
    have h1 := hq q (H3q n hmem q hqn)
    have h2 : (asapFold cfg initAvail (pre ++ [n])).qa q =
        asapStart cfg (asapFold cfg initAvail pre) n + n.dur := by
      rw [hF1]; simp only [asapStep]; rw [if_pos hqn]
    rw [h2] at h1
    omega
  have hed : asapStart cfg (asapFold cfg initAvail pre) n +
      (earliestData (alapFold cfg initAvail suf.reverse) n + n.dur) ≤
      totalLength cfg ns qubits clbits target := by
    unfold earliestData
    refine natMaxList_add_le (by omega) ?_
    intro x hx
    obtain ⟨q, hqn, rfl⟩ := List.mem_map.mp hx
    exact ha q hqn
  cases hw : n.writeTo with
  | none =>
    simp only [alapRevStart, hw]
    exact hed
  | some cw =>
    have hwl1 : asapStart cfg (asapFold cfg initAvail pre) n +
        cfg.clbit_write_latency ≤ (asapFold cfg initAvail (pre ++ [n])).ca cw := by
      have hstep : (asapStep cfg (asapFold cfg initAvail pre) n).ca cw =
          max ((asapFold cfg initAvail pre).ca cw)
            (asapStart cfg (asapFold cfg initAvail pre) n +
              cfg.clbit_write_latency) := by
        simp [asapStep, hw]
      rw [hF1, hstep]
      exact Nat.le_max_right _ _
    have hswl : asapStart cfg (asapFold cfg initAvail pre) n +
        cfg.clbit_write_latency ≤ totalLength cfg ns qubits clbits target :=
      le_trans hwl1 (prefix_ca_le_totalLength cfg ns (pre ++ [n]) suf qubits
        clbits target cw hns2 (H3c n hmem cw hw))
    simp only [alapRevStart, hw]
    rcases Nat.le_total
        (((alapFold cfg initAvail suf.reverse).ca cw + cfg.clbit_write_latency)
          - n.dur)
        (earliestData (alapFold cfg initAvail suf.reverse) n) with hle | hle
    · rw [Nat.max_eq_left hle]
      exact hed
    · rw [Nat.max_eq_right hle]
      rcases Nat.le_total
          ((alapFold cfg initAvail suf.reverse).ca cw + cfg.clbit_write_latency)
          n.dur with hld | hld
      · rw [Nat.sub_eq_zero_of_le hld]
        simpa using hsd
      · rw [Nat.sub_add_cancel hld]
        by_cases hz : (alapFold cfg initAvail suf.reverse).ca cw = 0
        · rw [hz]
          simpa using hswl
        · obtain ⟨l1, n2, l2, hsuf, hcond2, hval, hineq⟩ := hc cw hz
          have hmono2 : (asapFold cfg initAvail (pre ++ [n])).ca cw ≤
              (asapFold cfg initAvail ((pre ++ [n]) ++ l1)).ca cw := by
            have he : asapFold cfg initAvail ((pre ++ [n]) ++ l1) =
                asapFold cfg (asapFold cfg initAvail (pre ++ [n])) l1 :=
              asapFold_append cfg initAvail (pre ++ [n]) l1
            rw [he]
            exact ca_le_asapFold cfg _ l1 cw
          have hs2 : (asapFold cfg initAvail ((pre ++ [n]) ++ l1)).ca cw +
              cfg.conditional_latency ≤
              asapStart cfg (asapFold cfg initAvail ((pre ++ [n]) ++ l1)) n2 := by
            unfold asapStart; rw [hcond2]; exact Nat.le_max_right _ _
          omega

lemma sched_inv (cfg : TimingConfig) (ns : List (SpecOpNode Q C))
    (qubits : List Q) (clbits : List C) (target : Nat)
    (H1 : ∀ m ∈ ns, m.qargs ≠ [])
    (H3q : ∀ m ∈ ns, ∀ q ∈ m.qargs, q ∈ qubits)
    (H3c : ∀ m ∈ ns, ∀ cw : C, m.writeTo = some cw → cw ∈ clbits) :
    ∀ suf pre : List (SpecOpNode Q C), ns = pre ++ suf →
      SchedInv cfg qubits (totalLength cfg ns qubits clbits target) pre suf := by
  intro suf
  induction suf with
  | nil =>
    intro pre hns
    constructor
    · intro q hqq
      have hz : (alapFold cfg initAvail
          ([] : List (SpecOpNode Q C)).reverse).qa q = 0 := rfl
      rw [hz]
      simpa using prefix_qa_le_totalLength cfg ns pre [] qubits clbits target q
        hns hqq
    · intro c hcc
      exact absurd rfl hcc
  | cons n suf ih =>
    intro pre hns
    have hns2 : ns = (pre ++ [n]) ++ suf := by rw [hns]; simp
    have hinv := ih (pre ++ [n]) hns2
    have hper := pernode_of_inv cfg ns qubits clbits target H1 H3q H3c
      pre suf n hns hinv
    have hfold : alapFold cfg initAvail (n :: suf).reverse =
        alapRevStep cfg (alapFold cfg initAvail suf.reverse) n := by
      rw [List.reverse_cons, alapFold_concat]
    constructor
    · intro q hqq
      rw [hfold]
      by_cases hmem : q ∈ n.qargs
      · have hstep : (alapRevStep cfg (alapFold cfg initAvail suf.reverse) n).qa q =
            alapRevStart cfg (alapFold cfg initAvail suf.reverse) n + n.dur := by
          simp only [alapRevStep]; rw [if_pos hmem]
        rw [hstep]
        have hF0le : (asapFold cfg initAvail pre).qa q ≤
            asapStart cfg (asapFold cfg initAvail pre) n :=
          le_trans (le_natMaxList (List.mem_map_of_mem _ hmem))
            (earliestData_le_asapStart cfg _ n)
        omega
      · have hstep : (alapRevStep cfg (alapFold cfg initAvail suf.reverse) n).qa q =
            (alapFold cfg initAvail suf.reverse).qa q := by
          simp only [alapRevStep]; rw [if_neg hmem]
        rw [hstep]
        have hpre : (asapFold cfg initAvail pre).qa q ≤
            (asapFold cfg initAvail (pre ++ [n])).qa q := by
          rw [asapFold_append]
          exact qa_le_asapFold cfg _ [n] q
        have hq1 := hinv.1 q hqq
        omega
    · intro c hcc
      rw [hfold] at hcc ⊢
      cases hcond : n.cond with
      | some c0 =>
        by_cases hceq : c = c0
        · subst hceq
          have hval : (alapRevStep cfg (alapFold cfg initAvail suf.reverse) n).ca c =
              max ((alapFold cfg initAvail suf.reverse).ca c)
                (alapRevStart cfg (alapFold cfg initAvail suf.reverse) n + n.dur +
                  cfg.conditional_latency) := by
            simp [alapRevStep, hcond]
          rw [hval] at hcc ⊢
          rcases Nat.le_total ((alapFold cfg initAvail suf.reverse).ca c)
              (alapRevStart cfg (alapFold cfg initAvail suf.reverse) n + n.dur +
                cfg.conditional_latency) with hle | hle
          · rw [Nat.max_eq_right hle]
            refine ⟨[], n, suf, rfl, hcond, rfl, ?_⟩
            rw [List.append_nil]
            exact hper
          · rw [Nat.max_eq_left hle] at hcc ⊢
            obtain ⟨l1, n2, l2, hsuf, hc2, hv2, hi2⟩ := hinv.2 c hcc
            refine ⟨n :: l1, n2, l2, by rw [hsuf]; rfl, hc2, hv2, ?_⟩
            have hassoc : pre ++ n :: l1 = (pre ++ [n]) ++ l1 := by simp
            rw [hassoc]
            exact hi2
        · have hval : (alapRevStep cfg (alapFold cfg initAvail suf.reverse) n).ca c =
              (alapFold cfg initAvail suf.reverse).ca c := by
            simp only [alapRevStep, hcond]; rw [if_neg hceq]
          rw [hval] at hcc ⊢
          obtain ⟨l1, n2, l2, hsuf, hc2, hv2, hi2⟩ := hinv.2 c hcc
          refine ⟨n :: l1, n2, l2, by rw [hsuf]; rfl, hc2, hv2, ?_⟩
          have hassoc : pre ++ n :: l1 = (pre ++ [n]) ++ l1 := by simp
          rw [hassoc]
          exact hi2
      | none =>
        have hval : (alapRevStep cfg (alapFold cfg initAvail suf.reverse) n).ca c =
            (alapFold cfg initAvail suf.reverse).ca c := by
          simp only [alapRevStep, hcond]
        rw [hval] at hcc ⊢
        obtain ⟨l1, n2, l2, hsuf, hc2, hv2, hi2⟩ := hinv.2 c hcc
        refine ⟨n :: l1, n2, l2, by rw [hsuf]; rfl, hc2, hv2, ?_⟩
        have hassoc : pre ++ n :: l1 = (pre ++ [n]) ++ l1 := by simp
        rw [hassoc]
        exact hi2

/-- C9: for every node of the same input graph scheduled with the same
`TimingConfig` (and any caller-supplied target length), the node's
latest-feasible (ALAP) start time is at least its earliest-feasible (ASAP)
start time.  The hypotheses embed the spec's data model of an input graph:
every operation node references at least one data resource (§3 gives each
node a list of data-resource references and §8's
`start(n) + duration(n) ≤ totalLength` presupposes the node's occupancy is
registered on some resource), and the graph's declared resource lists cover
the resources its nodes reference (§6: the graph's resource identifiers are
produced by the upstream graph constructor). -/
theorem C9_alap_ge_asap (cfg : TimingConfig)
    (ns : List (SpecOpNode Q C)) (qubits : List Q) (clbits : List C)
    (target : Nat)
    (H1 : ∀ m ∈ ns, m.qargs ≠ [])
    (H3q : ∀ m ∈ ns, ∀ q ∈ m.qargs, q ∈ qubits)
    (H3c : ∀ m ∈ ns, ∀ cw : C, m.writeTo = some cw → cw ∈ clbits)
    (i : Fin ns.length) :
    asapStartTime cfg ns i ≤ alapStartTime cfg ns qubits clbits target i := by
  have hdecomp : ns = ns.take i ++ ns.get i :: ns.drop (i + 1) := by
    conv =>
      lhs
      rw [← List.take_append_drop i ns]
    rw [List.drop_eq_getElem_cons i.isLt]
    rfl
  have hdecomp2 : ns = (ns.take i ++ [ns.get i]) ++ ns.drop (i + 1) := by
    rw [List.append_assoc]
    exact hdecomp
  have hinv := sched_inv cfg ns qubits clbits target H1 H3q H3c
    (ns.drop (i + 1)) (ns.take i ++ [ns.get i]) hdecomp2
  have hper := pernode_of_inv cfg ns qubits clbits target H1 H3q H3c
    (ns.take i) (ns.drop (i + 1)) (ns.get i) hdecomp hinv
  exact Nat.le_sub_of_add_le hper

/-- Timing config for the C9 witness: conditional latency 30, register
write latency 20. -/
def c9WitnessCfg : TimingConfig := { conditional_latency := 30, clbit_write_latency := 20 }

/-- Nodes for the C9 witness: a measurement-like writer on qubit 0 followed
by a conditional operation on qubit 1 reading the written condition
resource. -/
def c9WitnessNodes : List (SpecOpNode (Fin 2) (Fin 1)) :=
  [{ qargs := [0], dur := 100, cond := none, writeTo := some 0 },
   { qargs := [1], dur := 10, cond := some 0, writeTo := none }]

/-- The data resources of the C9 witness graph. -/
def c9WitnessQubits : List (Fin 2) := [0, 1]

/-- The condition resources of the C9 witness graph. -/
def c9WitnessClbits : List (Fin 1) := [0]

/-- Witness for C9 at a concrete input satisfying the wellformedness
hypotheses: a measurement-like writer followed by a dependent conditional
operation, with nonzero latencies in both channels. -/
theorem C9_witness :
    (∀ m ∈ c9WitnessNodes, m.qargs ≠ []) ∧
    (∀ m ∈ c9WitnessNodes, ∀ q ∈ m.qargs, q ∈ c9WitnessQubits) ∧
    (∀ m ∈ c9WitnessNodes, ∀ cw : Fin 1, m.writeTo = some cw → cw ∈ c9WitnessClbits) ∧
    asapStartTime c9WitnessCfg c9WitnessNodes ⟨1, by decide⟩ ≤
      alapStartTime c9WitnessCfg c9WitnessNodes c9WitnessQubits c9WitnessClbits 0
        ⟨1, by decide⟩ :=
  ⟨by decide, by decide, by decide,
   C9_alap_ge_asap c9WitnessCfg c9WitnessNodes c9WitnessQubits
     c9WitnessClbits 0 (by decide) (by decide) (by decide)
     ⟨1, by decide⟩⟩

end Spec2Proof
